import Mathlib

/-!
# Verification of the trade-data processing pipeline

Shallow embedding of `src/lib/dataUtils.ts` (`processData`, `downloadCSV`) and of
the derived-view computation of the `BCGMatrix` scatter-chart component.

Modelling conventions:
* JavaScript numbers are modelled by exact rationals (`ℚ`); `NaN` outcomes of
  parsing are modelled by `Option`.
* JavaScript field names are Chinese identifiers which Lean does not accept, so
  each field carries its source name in a comment:
  `year` = 年份, `partnerName` = 贸易伙伴名称, `exportVal` = 出口额 / 人民币,
  `marketShare` = 市场份额, `yoyGrowth` = 同比增速, `prevExport` = 去年出口额,
  `period` = 数据年月.
* String operations are modelled on the underlying character lists (for the
  BMP text occurring in this data this agrees with JS's UTF-16 indexing).
* The JS aggregation object is keyed by the template string
  `${年份}-${贸易伙伴名称}`.  Since the decimal rendering of an integer contains
  a `-` only at position 0, that key determines the pair (year, name) uniquely,
  so the embedding keys the association list by the pair itself.
* Objects built by spreading (`{...row, extra}`) are modelled by structures
  that carry the previous stage's record plus the extra fields.
* `Array.prototype.sort` with a comparator is some comparator-consistent,
  stable reordering; the embedding uses `List.insertionSort` on the preorder
  `comparator ≤ 0`, which has both properties.
-/

/-- The value of the period field 数据年月 (`string | number`); numeric periods
are integers in this data (e.g. `202301`), for which JS `String()` is the
decimal rendering. -/
inductive PeriodVal where
  | pstr (s : String)
  | pnum (n : Int)
deriving DecidableEq, Repr

/-- The value of the export field 人民币 (`string | number`, possibly
missing/null as handled by the `!== undefined && !== null` check). -/
inductive RmbVal where
  | vstr (s : String)
  | vnum (q : ℚ)
  | vnull
deriving DecidableEq, Repr

/-- One row of the uploaded file (interface `RawData`); the commodity/partner
code fields are ignored by the pipeline and omitted. -/
structure RawData where
  /-- 数据年月 -/
  period : PeriodVal
  /-- 贸易伙伴名称 (the empty string models a falsy/absent name) -/
  partnerName : String
  /-- 人民币 -/
  rmb : RmbVal
deriving DecidableEq, Repr

/-- Result of step 1 of `processData` (cleaned row: 年份, 贸易伙伴名称, 出口额);
step 2's aggregated records have the same fields and reuse this type. -/
structure CleanedRow where
  /-- 年份 -/
  year : Int
  /-- 贸易伙伴名称 -/
  partnerName : String
  /-- 出口额 -/
  exportVal : ℚ
deriving DecidableEq, Repr

/-- Step 4's record: aggregated row spread with 市场份额. -/
structure ShareRow where
  /-- the spread `...row` -/
  base : CleanedRow
  /-- 市场份额 -/
  marketShare : ℚ
deriving DecidableEq, Repr

/-- The final record (interface `ProcessedData`). -/
structure ProcessedData where
  /-- 年份 -/
  year : Int
  /-- 贸易伙伴名称 -/
  partnerName : String
  /-- 出口额 -/
  exportVal : ℚ
  /-- 市场份额 -/
  marketShare : ℚ
  /-- 同比增速 (`number | null`) -/
  yoyGrowth : Option ℚ
  /-- 去年出口额 -/
  prevExport : ℚ
deriving DecidableEq, Repr

/-! ## Models of the JavaScript string/number primitives used by the pipeline -/

/-- Value of a list of decimal digit characters. -/
def digitsVal (cs : List Char) : Nat :=
  cs.foldl (fun acc c => acc * 10 + (c.toNat - '0'.toNat)) 0

/-- Leading sign of a JS numeric literal: the sign as `1` or `-1` and the
remaining characters. -/
def readSign : List Char → Int × List Char
  | '+' :: rest => (1, rest)
  | '-' :: rest => (-1, rest)
  | cs => (1, cs)

/-- `parseInt(s, 10)`: skip leading whitespace, optional sign, then the longest
prefix of decimal digits; `NaN` (here `none`) when that prefix is empty. -/
def jsParseInt (s : String) : Option Int :=
  let cs := s.data.dropWhile Char.isWhitespace
  let (sign, cs) := readSign cs
  let ds := cs.takeWhile Char.isDigit
  if ds.isEmpty then none else some (sign * (digitsVal ds : Int))

/-- The exponent suffix of a JS float literal: `e`/`E`, optional sign, digits;
a malformed suffix contributes exponent 0 (`parseFloat` stops before it). -/
def readExp (cs : List Char) : Int :=
  match cs with
  | 'e' :: rest | 'E' :: rest =>
    let (sign, rest') := readSign rest
    let ds := rest'.takeWhile Char.isDigit
    if ds.isEmpty then 0 else sign * (digitsVal ds : Int)
  | _ => 0

/-- `parseFloat(s)` on decimal literals, in exact arithmetic: skip leading
whitespace, optional sign, integer digits, optional `.` and fraction digits,
optional exponent; `NaN` (here `none`) when no digit was read.  (`Infinity`
literals do not occur in this data and are out of scope.) -/
def jsParseFloat (s : String) : Option ℚ :=
  let cs := s.data.dropWhile Char.isWhitespace
  let (sign, cs) := readSign cs
  let ip := cs.takeWhile Char.isDigit
  let rest := cs.dropWhile Char.isDigit
  let fp : List Char := match rest with
    | '.' :: r => r.takeWhile Char.isDigit
    | _ => []
  let rest' : List Char := match rest with
    | '.' :: r => r.dropWhile Char.isDigit
    | _ => rest
  if ip.isEmpty ∧ fp.isEmpty then none
  else
    let mant : ℚ := (digitsVal ip : ℚ) + (digitsVal fp : ℚ) / ((10 : ℚ) ^ fp.length)
    some ((sign : ℚ) * mant * (10 : ℚ) ^ (readExp rest'))

/-- JS `String(x)` for the period field. -/
def periodToString : PeriodVal → String
  | .pstr s => s
  | .pnum n => toString n

/-- JS `x || d` on a number `x` (no `NaN` arises at its use sites here, so
falsy means `0`). -/
def jsOr (x d : ℚ) : ℚ := if x = 0 then d else x

/-- `s.substring(0, n)`: the first `n` characters. -/
def firstChars (n : Nat) (s : String) : String := ⟨s.data.take n⟩

/-- `s.replace(/,/g, '')`: removing every occurrence of `,` is the same as
filtering the character out. -/
def stripCommas (s : String) : String := ⟨s.data.filter (fun c => c ≠ ',')⟩

/-- JS `s.trim()`: strip whitespace from both ends. -/
def jsTrim (s : String) : String :=
  ⟨((s.data.dropWhile Char.isWhitespace).reverse.dropWhile Char.isWhitespace).reverse⟩

/-- Split a character list at every separator character (JS
`String.prototype.split` with a character class: empty pieces are kept). -/
def splitChars (p : Char → Bool) (cs : List Char) : List (List Char) :=
  cs.foldr
    (fun c acc =>
      if p c then [] :: acc
      else
        match acc with
        | [] => [[c]]
        | g :: gs => (c :: g) :: gs)
    [[]]

/-- JS `s.split(...)` for a character-class separator. -/
def jsSplit (s : String) (p : Char → Bool) : List String :=
  (splitChars p s.data).map (fun cs => ⟨cs⟩)

/-- Whether `pre` is a prefix of `cs`. -/
def charsLeadWith : List Char → List Char → Bool
  | _, [] => true
  | [], _ :: _ => false
  | h :: hs, n :: ns => h = n && charsLeadWith hs ns

/-- Whether `needle` occurs as a contiguous substring of `hay`
(JS `String.prototype.includes`). -/
def listIncludes (hay needle : List Char) : Bool :=
  if charsLeadWith hay needle then true
  else
    match hay with
    | [] => false
    | _ :: t => listIncludes t needle

/-- JS `s.includes(k)`. -/
def strIncludes (s k : String) : Bool := listIncludes s.data k.data

/-! ## `processData` step 1: clean data and extract year (lines 71–89) -/

/-- The 人民币 coercion (lines 72–79): strings are comma-stripped and
`parseFloat`ed, with `|| 0` mapping `NaN` to 0; numbers pass `|| 0`, which is
the identity on every rational; missing values leave the initial 0. -/
def coerceRmb : RmbVal → ℚ
  | .vnull => 0
  | .vstr s =>
      match jsParseFloat (stripCommas s) with
      | some q => q
      | none => 0
  | .vnum q => q

/-- Year extraction (lines 81–82):
`parseInt(String(row.数据年月).substring(0, 4), 10)`. -/
def extractYear (p : PeriodVal) : Option Int :=
  jsParseInt (firstChars 4 (periodToString p))

/-- Partner-name defaulting (line 86): `row.贸易伙伴名称 || '未知'`. -/
def cleanName (s : String) : String :=
  if s = "" then "未知" else s

/-- The map of lines 84–88 combined with the `!isNaN` filter of line 89:
`none` models a row whose year is `NaN` and is filtered out. -/
def cleanRow (r : RawData) : Option CleanedRow :=
  match extractYear r.period with
  | some y => some ⟨y, cleanName r.partnerName, coerceRmb r.rmb⟩
  | none => none

/-- `cleanedData` (lines 71–89). -/
def cleanedData (rawData : List RawData) : List CleanedRow :=
  rawData.filterMap cleanRow

/-! ## Step 2: aggregate by year and partner (lines 92–101) -/

/-- One `reduce` step of lines 92–99 on the association list modelling the
`aggregated` object: add to the (unique) entry with this key, or append a new
entry at the end (JS object keys keep insertion order). -/
def updateAgg (acc : List CleanedRow) (curr : CleanedRow) : List CleanedRow :=
  match acc with
  | [] => [⟨curr.year, curr.partnerName, curr.exportVal⟩]
  | a :: rest =>
    if a.year = curr.year ∧ a.partnerName = curr.partnerName then
      ⟨a.year, a.partnerName, a.exportVal + curr.exportVal⟩ :: rest
    else
      a :: updateAgg rest curr

/-- `aggregatedArray` = `Object.values(aggregated)` (lines 92–101). -/
def aggregate (rows : List CleanedRow) : List CleanedRow :=
  rows.foldl updateAgg []

/-! ## Step 3: global total per year (lines 104–107) -/

/-- One `reduce` step of lines 104–107 on the association list modelling the
`globalTotal` object: `acc[curr.年份] = (acc[curr.年份] || 0) + curr.出口额`. -/
def addTotal (acc : List (Int × ℚ)) (curr : CleanedRow) : List (Int × ℚ) :=
  match acc with
  | [] => [(curr.year, curr.exportVal)]
  | (y, t) :: rest =>
    if y = curr.year then (y, t + curr.exportVal) :: rest
    else (y, t) :: addTotal rest curr

/-- The `globalTotal` object (lines 104–107). -/
def globalTotal (agg : List CleanedRow) : List (Int × ℚ) :=
  agg.foldl addTotal []

/-- `globalTotal[y] || 1` of line 112: a missing key is `undefined`, hence
falsy, hence `1`; a zero total is likewise replaced by `1`. -/
def lookupTotalOr1 (m : List (Int × ℚ)) (y : Int) : ℚ :=
  match m.find? (fun p => p.1 = y) with
  | some p => jsOr p.2 1
  | none => 1

/-! ## Step 4: market share (lines 110–113) -/

/-- `withMarketShare` (lines 110–113). -/
def withMarketShare (agg : List CleanedRow) : List ShareRow :=
  agg.map (fun row => ⟨row, row.exportVal / lookupTotalOr1 (globalTotal agg) row.year⟩)

/-! ## Step 5: year-over-year growth (lines 116–130) -/

/-- The body of the map of lines 116–130 for one row, searching `ws` (the
`withMarketShare` array) for the previous-year record of the same partner. -/
def yoyStep (ws : List ShareRow) (row : ShareRow) : ProcessedData :=
  let prevYearRow := ws.find? (fun r =>
    r.base.year = row.base.year - 1 ∧ r.base.partnerName = row.base.partnerName)
  let prevExport : ℚ := match prevYearRow with
    | some r => r.base.exportVal
    | none => 0
  let yoyGrowth : Option ℚ :=
    if prevExport ≠ 0 then some ((row.base.exportVal - prevExport) / |prevExport|) else none
  ⟨row.base.year, row.base.partnerName, row.base.exportVal, row.marketShare,
    yoyGrowth, prevExport⟩

/-- `finalData` before sorting (lines 116–130). -/
def finalData (ws : List ShareRow) : List ProcessedData :=
  ws.map (yoyStep ws)

/-! ## Step 6: sort (lines 133–138) -/

/-- The sort comparator of lines 133–138 as the preorder `comparator ≤ 0`:
year ascending, then export value descending. -/
def rowLe (a b : ProcessedData) : Prop :=
  if a.year = b.year then b.exportVal ≤ a.exportVal else a.year < b.year

instance : DecidableRel rowLe := fun a b => by unfold rowLe; infer_instance

/-- `processData` (lines 69–141). -/
def processData (rawData : List RawData) : List ProcessedData :=
  List.insertionSort rowLe (finalData (withMarketShare (aggregate (cleanedData rawData))))

/-! ## The `downloadCSV` export (lines 143–163) -/

/-- Minimal exponent `k ≤ fuel` with `q * 10^k` integral, if any. -/
def findPow10 (q : ℚ) : Nat → Option Nat
  | 0 => if q.den = 1 then some 0 else none
  | fuel + 1 => if q.den = 1 then some 0 else (findPow10 (q * 10) fuel).map (· + 1)

/-- Decimal digit string of `n` left-padded with zeros to width `w`. -/
def padDigits (w : Nat) (n : Nat) : String :=
  let s := toString n
  ⟨List.replicate (w - s.length) '0'⟩ ++ s

/-- JS `String(x)` on a number: the shortest decimal rendering.  For the
terminating decimals produced by this pipeline's data this is the exact
decimal expansion (integers without a point); values without a terminating
decimal expansion do not round-trip a double exactly and are approximated
here by 32 fractional digits. -/
def jsNumToString (q : ℚ) : String :=
  match findPow10 q q.den with
  | some k =>
    let n := (q * (10 : ℚ) ^ k).num
    let sign := if n < 0 then "-" else ""
    let m := n.natAbs
    if k = 0 then sign ++ toString m
    else sign ++ toString (m / 10 ^ k) ++ "." ++ padDigits k (m % 10 ^ k)
  | none =>
    let n := (q * (10 : ℚ) ^ (32 : Nat)).num / (q * (10 : ℚ) ^ (32 : Nat)).den
    let sign := if n < 0 then "-" else ""
    sign ++ toString (n.natAbs / 10 ^ (32 : Nat)) ++ "." ++ padDigits 32 (n.natAbs % 10 ^ (32 : Nat))

/-- JS `x.toFixed(f)` in exact arithmetic, following ECMA-262 `Number.prototype.toFixed`:
the sign is extracted first (so `-0.04` renders as `"-0.0"`), then the
magnitude is rounded to the integer `n` minimising `|n / 10^f - |x||` with
ties to the larger `n`, rendered with exactly `f` decimal places. -/
def jsToFixed (f : Nat) (x : ℚ) : String :=
  let sign := if x < 0 then "-" else ""
  let m : Nat := (⌊|x| * (10 : ℚ) ^ f + 1 / 2⌋).toNat
  sign ++ toString (m / 10 ^ f) ++ "." ++ padDigits f (m % 10 ^ f)

/-- One row of the object array built in lines 144–151. -/
structure CsvRow where
  /-- 年份 -/
  year : Int
  /-- 贸易伙伴名称 -/
  partnerName : String
  /-- 市场份额 -/
  marketShare : ℚ
  /-- 同比增速 -/
  yoyGrowth : Option ℚ
  /-- 市场份额_展示 -/
  shareDisplay : String
  /-- 同比增速_展示 -/
  growthDisplay : String
deriving DecidableEq, Repr

/-- Lines 144–151: keep only records with non-null growth and shape the
export row (note: no 出口额 column is produced). -/
def csvData (data : List ProcessedData) : List CsvRow :=
  (data.filter (fun r => r.yoyGrowth ≠ none)).map (fun row =>
    ⟨row.year, row.partnerName, row.marketShare, row.yoyGrowth,
      jsToFixed 2 (row.marketShare * 100) ++ "%",
      match row.yoyGrowth with
      | some g => jsToFixed 1 (g * 100) ++ "%"
      | none => ""⟩)

/-- Papa.unparse quotes a field that contains the quote char, the delimiter,
a line break, or leading/trailing whitespace. -/
def csvNeedsQuote (s : String) : Bool :=
  s.data.any (fun c => c = '"' ∨ c = ',' ∨ c = '\n' ∨ c = '\r') ||
    s.startsWith " " || s.endsWith " "

/-- Quote a field for Papa.unparse, doubling embedded quote characters. -/
def csvQuote (s : String) : String :=
  if csvNeedsQuote s then
    "\"" ++ ⟨s.data.foldr (fun c acc => if c = '"' then '"' :: '"' :: acc else c :: acc) []⟩ ++ "\""
  else s

/-- The header row Papa.unparse derives from the object keys, in insertion
order. -/
def csvHeader : String := "年份,贸易伙伴名称,市场份额,同比增速,市场份额_展示,同比增速_展示"

/-- One serialized row: fields in key order, numbers via `String(x)`, `null`
as the empty string, comma-delimited. -/
def csvRowString (r : CsvRow) : String :=
  String.intercalate ","
    [csvQuote (toString r.year), csvQuote r.partnerName,
     csvQuote (jsNumToString r.marketShare),
     csvQuote (match r.yoyGrowth with | some g => jsNumToString g | none => ""),
     csvQuote r.shareDisplay, csvQuote r.growthDisplay]

/-- `Papa.unparse` (line 153) with its defaults: comma delimiter, `\r\n`
record separator, header row from the first object's keys.  An empty object
array yields the empty string (no object to derive fields from). -/
def papaUnparse (rows : List CsvRow) : String :=
  match rows with
  | [] => ""
  | _ :: _ => String.intercalate "\r\n" (csvHeader :: rows.map csvRowString)

/-- The text content of the downloaded blob (line 154): byte-order mark
followed by the Papa.unparse output.  (The DOM link/click plumbing of lines
155–162 has no data content and is not modelled.) -/
def downloadText (data : List ProcessedData) : String :=
  "\uFEFF" ++ papaUnparse (csvData data)

/-! ## The `BCGMatrix` plotted-data computation (`BCGMatrix.tsx`, lines 75–131) -/

/-- The three filters of lines 76–90: year / non-null growth / positive share,
then the market-share percentage range, then the comma-separated keyword
filter (applied only when the trimmed filter text and the keyword list are
both non-empty). -/
def bcgKeywords (countryFilter : String) : List String :=
  ((jsSplit countryFilter (fun c => c = ',' ∨ c = '，')).map jsTrim).filter (fun k => k ≠ "")

/-- Lines 76–90. -/
def bcgFilter (data : List ProcessedData) (year : Int) (minShare maxShare : ℚ)
    (countryFilter : String) : List ProcessedData :=
  let f1 := data.filter (fun d => d.year = year ∧ d.yoyGrowth ≠ none ∧ 0 < d.marketShare)
  let f2 := f1.filter (fun d => minShare ≤ d.marketShare * 100 ∧ d.marketShare * 100 ≤ maxShare)
  if jsTrim countryFilter ≠ "" ∧ bcgKeywords countryFilter ≠ [] then
    f2.filter (fun d => (bcgKeywords countryFilter).any (fun k => strIncludes d.partnerName k))
  else f2

/-- Sort by export value descending (line 93) as the preorder
`comparator ≤ 0`. -/
def exportDesc (a b : ProcessedData) : Prop := b.exportVal ≤ a.exportVal

instance : DecidableRel exportDesc := fun a b => by unfold exportDesc; infer_instance

/-- One plotted point (lines 104–128): the spread record plus the clamped
y value, the display label and the quadrant colour. -/
structure PlotRow where
  /-- the spread `...d` -/
  base : ProcessedData
  /-- `yPlot` -/
  yPlot : ℚ
  /-- `label` -/
  label : String
  /-- `fill` -/
  fill : String
deriving DecidableEq, Repr

/-- The body of `filtered.map((d, index) => ...)` (lines 104–128) for one
record. -/
def plotStep (xRef yMin yMax : ℚ) (index : Nat) (d : ProcessedData) : PlotRow :=
  let g : ℚ := match d.yoyGrowth with | some g => g | none => 0
  let yPlot := max yMin (min g yMax)
  let isHighShare := xRef ≤ d.marketShare
  let isHighGrowth := (0 : ℚ) ≤ yPlot
  let fill :=
    if isHighShare ∧ isHighGrowth then "#10b981"
    else if ¬isHighShare ∧ isHighGrowth then "#f59e0b"
    else if isHighShare ∧ ¬isHighGrowth then "#3b82f6"
    else "#ef4444"
  ⟨d, yPlot, if index < 20 then d.partnerName else "", fill⟩

/-- `Array.prototype.map` with the element index, starting at `index`. -/
def plotMap (xRef yMin yMax : ℚ) (index : Nat) : List ProcessedData → List PlotRow
  | [] => []
  | d :: rest => plotStep xRef yMin yMax index d :: plotMap xRef yMin yMax (index + 1) rest

/-- `plotData` of the `useMemo` of lines 75–131: filter, sort by export value
descending, truncate to 35, map to plot points (the empty-filter early return
of lines 96–98 yields the empty plot). -/
def bcgPlotData (data : List ProcessedData) (year : Int) (yMin yMax minShare maxShare : ℚ)
    (countryFilter : String) : List PlotRow :=
  let filtered :=
    (List.insertionSort exportDesc (bcgFilter data year minShare maxShare countryFilter)).take 35
  if filtered.isEmpty then []
  else
    let xRef := (filtered.map (fun d => d.marketShare)).sum / (filtered.length : ℚ)
    plotMap xRef yMin yMax 0 filtered
/-! ## Helper lemmas: sums per year through the pipeline stages -/

/-- Sum of the export values of the year-`y` records of a cleaned or
aggregated list. -/
def sumYear (l : List CleanedRow) (y : Int) : ℚ :=
  ((l.filter (fun r => r.year = y)).map (fun r => r.exportVal)).sum

/-- Sum of the export values of the year-`y` records of the final output. -/
def yearExportSum (l : List ProcessedData) (y : Int) : ℚ :=
  ((l.filter (fun r => r.year = y)).map (fun r => r.exportVal)).sum

/-- Sum of the market shares of the year-`y` records of the final output. -/
def yearShareSum (l : List ProcessedData) (y : Int) : ℚ :=
  ((l.filter (fun r => r.year = y)).map (fun r => r.marketShare)).sum

lemma sumYear_nil (y : Int) : sumYear [] y = 0 := rfl

lemma sumYear_cons (x : CleanedRow) (l : List CleanedRow) (y : Int) :
    sumYear (x :: l) y = (if x.year = y then x.exportVal else 0) + sumYear l y := by
  by_cases h : x.year = y <;> simp [sumYear, List.filter_cons, h]

lemma updateAgg_sumYear (acc : List CleanedRow) (c : CleanedRow) (y : Int) :
    sumYear (updateAgg acc c) y = sumYear acc y + (if c.year = y then c.exportVal else 0) := by
  induction acc with
  | nil => simp [updateAgg, sumYear_cons, sumYear_nil]
  | cons a rest ih =>
    by_cases hk : a.year = c.year ∧ a.partnerName = c.partnerName
    · simp only [updateAgg, if_pos hk, sumYear_cons]
      rcases hk with ⟨hy, -⟩
      by_cases h : a.year = y
      · rw [if_pos h, if_pos h, if_pos (hy ▸ h)]; ring
      · rw [if_neg h, if_neg h, if_neg (hy ▸ h)]; ring
    · simp only [updateAgg, if_neg hk, sumYear_cons, ih]; ring

lemma foldl_updateAgg_sumYear (rows : List CleanedRow) (y : Int) :
    ∀ acc : List CleanedRow,
      sumYear (List.foldl updateAgg acc rows) y = sumYear acc y + sumYear rows y := by
  induction rows with
  | nil => intro acc; simp [sumYear_nil]
  | cons r rows ih =>
    intro acc
    simp only [List.foldl_cons, ih, updateAgg_sumYear, sumYear_cons]
    ring

lemma aggregate_sumYear (rows : List CleanedRow) (y : Int) :
    sumYear (aggregate rows) y = sumYear rows y := by
  simpa [sumYear_nil] using foldl_updateAgg_sumYear rows y []

lemma cleanedData_sumYear (raw : List RawData) (y : Int) :
    sumYear (cleanedData raw) y
      = ((raw.filter (fun r => extractYear r.period = some y)).map
          (fun r => coerceRmb r.rmb)).sum := by
  induction raw with
  | nil => rfl
  | cons r rest ih =>
    rcases h : extractYear r.period with _ | y'
    · have hc : cleanRow r = none := by simp [cleanRow, h]
      have : ¬ extractYear r.period = some y := by simp [h]
      simp only [cleanedData, List.filterMap_cons, hc] at ih ⊢
      simp [List.filter_cons, this, ih]
    · have hc : cleanRow r = some ⟨y', cleanName r.partnerName, coerceRmb r.rmb⟩ := by
        simp [cleanRow, h]
      by_cases hy : y' = y
      · subst hy
        simp [cleanedData, List.filterMap_cons, hc, sumYear_cons, List.filter_cons, h]
        have := ih
        simp only [cleanedData] at this
        rw [this]
      · have : ¬ extractYear r.period = some y := by simp [h, hy]
        simp only [cleanedData, List.filterMap_cons, hc, sumYear_cons, List.filter_cons]
        simp only [cleanedData] at ih
        simp [this, hy, ih]

/-! ## Helper lemmas: the per-year global total -/

/-- `globalTotal[y] || 0`: the looked-up total, with 0 for a missing key. -/
def lookup0 (m : List (Int × ℚ)) (y : Int) : ℚ :=
  match m.find? (fun p => p.1 = y) with
  | some p => p.2
  | none => 0

lemma lookup0_nil (y : Int) : lookup0 [] y = 0 := rfl

lemma lookup0_cons (a : Int) (b : ℚ) (rest : List (Int × ℚ)) (y : Int) :
    lookup0 ((a, b) :: rest) y = if a = y then b else lookup0 rest y := by
  by_cases h : a = y
  · simp [lookup0, List.find?_cons_of_pos, h]
  · rw [if_neg h]
    simp only [lookup0]
    rw [List.find?_cons_of_neg]
    simp [h]

lemma addTotal_lookup0 (acc : List (Int × ℚ)) (c : CleanedRow) (y : Int) :
    lookup0 (addTotal acc c) y = lookup0 acc y + (if c.year = y then c.exportVal else 0) := by
  induction acc with
  | nil =>
    by_cases h : c.year = y <;> simp [addTotal, lookup0_cons, lookup0_nil, h]
  | cons p rest ih =>
    rcases p with ⟨a, b⟩
    by_cases ha : a = c.year
    · subst ha
      simp only [addTotal, if_pos rfl, lookup0_cons]
      by_cases h : c.year = y <;> simp [lookup0_cons, h]
    · simp only [addTotal, if_neg ha, lookup0_cons, ih]
      by_cases h : a = y
      · have hcy : ¬ c.year = y := fun hh => ha (h.trans hh.symm)
        simp [h, hcy]
      · simp [h]

lemma foldl_addTotal_lookup0 (rows : List CleanedRow) (y : Int) :
    ∀ acc : List (Int × ℚ),
      lookup0 (List.foldl addTotal acc rows) y = lookup0 acc y + sumYear rows y := by
  induction rows with
  | nil => intro acc; simp [sumYear_nil]
  | cons r rows ih =>
    intro acc
    simp only [List.foldl_cons, ih, addTotal_lookup0, sumYear_cons]
    ring

/-- The `globalTotal` object maps each year to the sum of the aggregated
export values of that year. -/
lemma globalTotal_lookup0 (agg : List CleanedRow) (y : Int) :
    lookup0 (globalTotal agg) y = sumYear agg y := by
  simpa [lookup0_nil] using foldl_addTotal_lookup0 agg y []

lemma lookupTotalOr1_eq (m : List (Int × ℚ)) (y : Int) :
    lookupTotalOr1 m y = jsOr (lookup0 m y) 1 := by
  rcases h : m.find? (fun p => p.1 = y) with _ | p <;>
    simp [lookupTotalOr1, lookup0, h, jsOr]

/-! ## Helper lemmas: transferring sums across the pipeline stages -/

lemma processData_perm (raw : List RawData) :
    (processData raw).Perm (finalData (withMarketShare (aggregate (cleanedData raw)))) :=
  List.perm_insertionSort _ _

lemma yearExportSum_perm {l l' : List ProcessedData} (h : l.Perm l') (y : Int) :
    yearExportSum l y = yearExportSum l' y :=
  ((h.filter _).map _).sum_eq

lemma yearShareSum_perm {l l' : List ProcessedData} (h : l.Perm l') (y : Int) :
    yearShareSum l y = yearShareSum l' y :=
  ((h.filter _).map _).sum_eq

lemma finalData_yearExportSum (ws : List ShareRow) (y : Int) :
    yearExportSum (finalData ws) y
      = ((ws.filter (fun w => w.base.year = y)).map (fun w => w.base.exportVal)).sum := by
  simp only [yearExportSum, finalData, List.filter_map, List.map_map]
  rfl

lemma withMarketShare_filter_map_export (agg : List CleanedRow) (y : Int) :
    ((withMarketShare agg).filter (fun w => w.base.year = y)).map (fun w => w.base.exportVal)
      = (agg.filter (fun a => a.year = y)).map (fun a => a.exportVal) := by
  simp only [withMarketShare, List.filter_map, List.map_map]
  rfl

/-- C1 reduced to the aggregated stage: the output's per-year export sum is
the aggregated per-year export sum. -/
lemma processData_yearExportSum (raw : List RawData) (y : Int) :
    yearExportSum (processData raw) y = sumYear (aggregate (cleanedData raw)) y := by
  rw [yearExportSum_perm (processData_perm raw), finalData_yearExportSum,
    withMarketShare_filter_map_export]
  rfl

/-- Claim C1: For every input array and every year, the output's export values
for that year sum to the coerced export values of the raw records whose
extracted year is that year. -/
theorem claim_C1 (raw : List RawData) (y : Int) :
    yearExportSum (processData raw) y
      = ((raw.filter (fun r => extractYear r.period = some y)).map
          (fun r => coerceRmb r.rmb)).sum := by
  rw [processData_yearExportSum, aggregate_sumYear, cleanedData_sumYear]

lemma list_sum_map_div (l : List ℚ) (d : ℚ) :
    (l.map (fun q => q / d)).sum = l.sum / d := by
  induction l with
  | nil => simp
  | cons q l ih => simp [add_div, ih]

lemma finalData_yearShareSum (ws : List ShareRow) (y : Int) :
    yearShareSum (finalData ws) y
      = ((ws.filter (fun w => w.base.year = y)).map (fun w => w.marketShare)).sum := by
  simp only [yearShareSum, finalData, List.filter_map, List.map_map]
  rfl

lemma withMarketShare_filter_map_share (agg : List CleanedRow) (y : Int) :
    ((withMarketShare agg).filter (fun w => w.base.year = y)).map (fun w => w.marketShare)
      = (agg.filter (fun a => a.year = y)).map
          (fun a => a.exportVal / lookupTotalOr1 (globalTotal agg) a.year) := by
  simp only [withMarketShare, List.filter_map, List.map_map]
  rfl

/-- Claim C2: For every input and every year whose global export total is
nonzero, the market shares of that year's output records sum to exactly 1. -/
theorem claim_C2 (raw : List RawData) (y : Int)
    (h : yearExportSum (processData raw) y ≠ 0) :
    yearShareSum (processData raw) y = 1 := by
  have hS : yearExportSum (processData raw) y = sumYear (aggregate (cleanedData raw)) y :=
    processData_yearExportSum raw y
  have hS0 : sumYear (aggregate (cleanedData raw)) y ≠ 0 := hS ▸ h
  rw [yearShareSum_perm (processData_perm raw), finalData_yearShareSum,
    withMarketShare_filter_map_share]
  have hdiv : lookupTotalOr1 (globalTotal (aggregate (cleanedData raw))) y
      = sumYear (aggregate (cleanedData raw)) y := by
    rw [lookupTotalOr1_eq, globalTotal_lookup0]
    unfold jsOr
    exact if_neg hS0
  have hcong :
      ((aggregate (cleanedData raw)).filter (fun a => a.year = y)).map
          (fun a => a.exportVal / lookupTotalOr1 (globalTotal (aggregate (cleanedData raw))) a.year)
        = ((aggregate (cleanedData raw)).filter (fun a => a.year = y)).map
            (fun a => a.exportVal / sumYear (aggregate (cleanedData raw)) y) := by
    refine List.map_congr_left (fun a ha => ?_)
    have hy : a.year = y := by simpa using (List.mem_filter.mp ha).2
    rw [hy, hdiv]
  rw [hcong]
  have hmm :
      ((aggregate (cleanedData raw)).filter (fun a => a.year = y)).map
          (fun a => a.exportVal / sumYear (aggregate (cleanedData raw)) y)
        = (((aggregate (cleanedData raw)).filter (fun a => a.year = y)).map
            (fun a => a.exportVal)).map
            (fun q => q / sumYear (aggregate (cleanedData raw)) y) := by
    rw [List.map_map]
    rfl
  rw [hmm, list_sum_map_div]
  exact div_self hS0

/-! ## Helper lemmas: uniqueness of the (year, partner) key after aggregation -/

/-- Two rows agree on the aggregation key `${年份}-${贸易伙伴名称}`. -/
def sameKey (a b : CleanedRow) : Prop :=
  a.year = b.year ∧ a.partnerName = b.partnerName

lemma sameKey_symm : Symmetric (fun a b : CleanedRow => ¬ sameKey a b) := by
  intro a b h hk
  exact h ⟨hk.1.symm, hk.2.symm⟩

lemma mem_updateAgg {acc : List CleanedRow} {c b : CleanedRow} (hb : b ∈ updateAgg acc c) :
    (∃ a ∈ acc, sameKey a b) ∨ sameKey c b := by
  induction acc with
  | nil =>
    simp only [updateAgg, List.mem_singleton] at hb
    exact Or.inr (by rw [hb]; exact ⟨rfl, rfl⟩)
  | cons a rest ih =>
    by_cases hk : a.year = c.year ∧ a.partnerName = c.partnerName
    · simp only [updateAgg, if_pos hk, List.mem_cons] at hb
      rcases hb with hb | hb
      · exact Or.inl ⟨a, List.mem_cons_self a rest, by rw [hb]; exact ⟨rfl, rfl⟩⟩
      · exact Or.inl ⟨b, List.mem_cons_of_mem a hb, ⟨rfl, rfl⟩⟩
    · simp only [updateAgg, if_neg hk, List.mem_cons] at hb
      rcases hb with hb | hb
      · exact Or.inl ⟨a, List.mem_cons_self a rest, by rw [hb]; exact ⟨rfl, rfl⟩⟩
      · rcases ih hb with ⟨a', ha', hk'⟩ | hk'
        · exact Or.inl ⟨a', List.mem_cons_of_mem a ha', hk'⟩
        · exact Or.inr hk'

lemma updateAgg_pairwise {acc : List CleanedRow} (c : CleanedRow)
    (h : acc.Pairwise (fun a b => ¬ sameKey a b)) :
    (updateAgg acc c).Pairwise (fun a b => ¬ sameKey a b) := by
  induction acc with
  | nil => simp [updateAgg]
  | cons a rest ih =>
    rw [List.pairwise_cons] at h
    obtain ⟨ha, hrest⟩ := h
    by_cases hk : a.year = c.year ∧ a.partnerName = c.partnerName
    · simp only [updateAgg, if_pos hk, List.pairwise_cons]
      refine ⟨fun b hb hk' => ha b hb ⟨hk'.1, hk'.2⟩, hrest⟩
    · simp only [updateAgg, if_neg hk, List.pairwise_cons]
      refine ⟨fun b hb hk' => ?_, ih hrest⟩
      rcases mem_updateAgg hb with ⟨a', ha', hk''⟩ | hk''
      · exact ha a' ha' ⟨hk'.1.trans hk''.1.symm, hk'.2.trans hk''.2.symm⟩
      · exact hk ⟨hk'.1.trans hk''.1.symm, hk'.2.trans hk''.2.symm⟩

lemma foldl_updateAgg_pairwise (rows : List CleanedRow) :
    ∀ acc : List CleanedRow, acc.Pairwise (fun a b => ¬ sameKey a b) →
      (List.foldl updateAgg acc rows).Pairwise (fun a b => ¬ sameKey a b) := by
  induction rows with
  | nil => intro acc h; exact h
  | cons r rows ih => intro acc h; exact ih _ (updateAgg_pairwise r h)

/-- Distinct aggregated records never share a (year, partner) key. -/
lemma aggregate_pairwise (rows : List CleanedRow) :
    (aggregate rows).Pairwise (fun a b => ¬ sameKey a b) :=
  foldl_updateAgg_pairwise rows [] List.Pairwise.nil

/-- Abbreviation: the `withMarketShare` array built by `processData`. -/
def wsOf (raw : List RawData) : List ShareRow :=
  withMarketShare (aggregate (cleanedData raw))

lemma processData_eq (raw : List RawData) :
    processData raw = List.insertionSort rowLe (finalData (wsOf raw)) := rfl

lemma wsOf_pairwise (raw : List RawData) :
    (wsOf raw).Pairwise (fun u v => ¬ sameKey u.base v.base) := by
  refine List.Pairwise.map _ (fun a b hab => ?_) (aggregate_pairwise (cleanedData raw))
  exact hab

/-- Within the `withMarketShare` array, the (year, partner) key determines the
record. -/
lemma wsOf_key_unique (raw : List RawData) {u v : ShareRow}
    (hu : u ∈ wsOf raw) (hv : v ∈ wsOf raw)
    (hy : u.base.year = v.base.year) (hn : u.base.partnerName = v.base.partnerName) :
    u = v := by
  by_contra hne
  have hsym : Symmetric (fun u v : ShareRow => ¬ sameKey u.base v.base) := by
    intro a b h hk
    exact h ⟨hk.1.symm, hk.2.symm⟩
  exact (wsOf_pairwise raw).forall hsym hu hv hne ⟨hy, hn⟩

lemma mem_processData {raw : List RawData} {r : ProcessedData} :
    r ∈ processData raw ↔ ∃ w ∈ wsOf raw, yoyStep (wsOf raw) w = r := by
  rw [processData_eq, (List.perm_insertionSort _ _).mem_iff]
  simp [finalData]

/-! ## Helper lemmas: the growth step -/

lemma yoyStep_year (ws : List ShareRow) (w : ShareRow) :
    (yoyStep ws w).year = w.base.year := rfl

lemma yoyStep_partnerName (ws : List ShareRow) (w : ShareRow) :
    (yoyStep ws w).partnerName = w.base.partnerName := rfl

lemma yoyStep_exportVal (ws : List ShareRow) (w : ShareRow) :
    (yoyStep ws w).exportVal = w.base.exportVal := rfl

lemma yoyStep_find_none {ws : List ShareRow} {w : ShareRow}
    (hf : ws.find? (fun r =>
        r.base.year = w.base.year - 1 ∧ r.base.partnerName = w.base.partnerName) = none) :
    (yoyStep ws w).prevExport = 0 ∧ (yoyStep ws w).yoyGrowth = none := by
  simp only [yoyStep, hf]
  constructor <;> first | rfl | trivial

lemma yoyStep_find_some {ws : List ShareRow} {w r'' : ShareRow}
    (hf : ws.find? (fun r =>
        r.base.year = w.base.year - 1 ∧ r.base.partnerName = w.base.partnerName) = some r'') :
    (yoyStep ws w).prevExport = r''.base.exportVal ∧
    (yoyStep ws w).yoyGrowth =
      (if r''.base.exportVal ≠ 0 then
        some ((w.base.exportVal - r''.base.exportVal) / |r''.base.exportVal|) else none) := by
  simp only [yoyStep, hf]
  constructor <;> first | rfl | trivial

/-- Claim C3: In every output record: if a record of the previous year with the
exact same partner name and nonzero export value is present, the growth is
`(current − previous) / |previous|`; if no such record is present, the growth
is `null` (hence never 0 in that case). -/
theorem claim_C3 (raw : List RawData) (r : ProcessedData) (hr : r ∈ processData raw) :
    (∀ r' ∈ processData raw, r'.year = r.year - 1 → r'.partnerName = r.partnerName →
        r'.exportVal ≠ 0 →
        r.yoyGrowth = some ((r.exportVal - r'.exportVal) / |r'.exportVal|))
    ∧ ((∀ r' ∈ processData raw,
          ¬(r'.year = r.year - 1 ∧ r'.partnerName = r.partnerName ∧ r'.exportVal ≠ 0)) →
        r.yoyGrowth = none) := by
  obtain ⟨w, hw, rfl⟩ := mem_processData.mp hr
  constructor
  · intro r' hr' hy hn hz
    obtain ⟨w', hw', rfl⟩ := mem_processData.mp hr'
    rcases hfind : (wsOf raw).find? (fun r0 =>
        r0.base.year = w.base.year - 1 ∧ r0.base.partnerName = w.base.partnerName)
      with _ | r''
    · exfalso
      have := List.find?_eq_none.mp hfind w' hw'
      simp only [yoyStep_year, yoyStep_partnerName] at hy hn
      simp [hy, hn] at this
    · have hmem'' := List.mem_of_find?_eq_some hfind
      have hpred := List.find?_some hfind
      simp only [decide_eq_true_eq] at hpred
      simp only [yoyStep_year, yoyStep_partnerName] at hy hn
      have : w' = r'' :=
        wsOf_key_unique raw hw' hmem'' (by rw [hy, hpred.1]) (by rw [hn, hpred.2])
      subst this
      have hz' : w'.base.exportVal ≠ 0 := by
        simpa only [yoyStep_exportVal] using hz
      obtain ⟨-, hg⟩ := yoyStep_find_some hfind
      rw [hg, if_pos hz']
      rfl
  · intro hnone
    rcases hfind : (wsOf raw).find? (fun r0 =>
        r0.base.year = w.base.year - 1 ∧ r0.base.partnerName = w.base.partnerName)
      with _ | r''
    · exact (yoyStep_find_none hfind).2
    · have hmem'' := List.mem_of_find?_eq_some hfind
      have hpred := List.find?_some hfind
      simp only [decide_eq_true_eq] at hpred
      have hout : yoyStep (wsOf raw) r'' ∈ processData raw :=
        mem_processData.mpr ⟨r'', hmem'', rfl⟩
      have hz : r''.base.exportVal = 0 := by
        by_contra hz
        exact hnone _ hout ⟨hpred.1, hpred.2, hz⟩
      obtain ⟨-, hg⟩ := yoyStep_find_some hfind
      rw [hg, if_neg (by simpa using hz)]

/-- Claim C10: In every output record, the prior-year export field is zero
exactly when the growth is null; a non-null growth comes with a matching
previous-year output record whose export value is the prior-year field, and
recomputes from the record's own fields. -/
theorem claim_C10 (raw : List RawData) (r : ProcessedData) (hr : r ∈ processData raw) :
    (r.prevExport = 0 ↔ r.yoyGrowth = none)
    ∧ (∀ g, r.yoyGrowth = some g →
        (∃ r' ∈ processData raw, r'.year = r.year - 1 ∧ r'.partnerName = r.partnerName ∧
          r'.exportVal = r.prevExport)
        ∧ g = (r.exportVal - r.prevExport) / |r.prevExport|) := by
  obtain ⟨w, hw, rfl⟩ := mem_processData.mp hr
  rcases hfind : (wsOf raw).find? (fun r0 =>
      r0.base.year = w.base.year - 1 ∧ r0.base.partnerName = w.base.partnerName)
    with _ | r''
  · obtain ⟨hp, hg⟩ := yoyStep_find_none hfind
    rw [hp, hg]
    exact ⟨by simp, fun g hgg => by simp at hgg⟩
  · obtain ⟨hp, hg⟩ := yoyStep_find_some hfind
    have hmem'' := List.mem_of_find?_eq_some hfind
    have hpred := List.find?_some hfind
    simp only [decide_eq_true_eq] at hpred
    by_cases hz : r''.base.exportVal = 0
    · rw [hp, hg, if_neg (by simpa using hz), hz]
      exact ⟨by simp, fun g hgg => by simp at hgg⟩
    · rw [hp, hg, if_pos hz]
      refine ⟨⟨fun h0 => absurd h0 hz, fun hs => by simp at hs⟩, fun g hgg => ?_⟩
      obtain rfl : g = (w.base.exportVal - r''.base.exportVal) / |r''.base.exportVal| :=
        Option.some_injective _ hgg.symm
      refine ⟨⟨yoyStep (wsOf raw) r'', mem_processData.mpr ⟨r'', hmem'', rfl⟩,
        ?_, ?_, ?_⟩, rfl⟩
      · simpa only [yoyStep_year] using hpred.1
      · simpa only [yoyStep_partnerName] using hpred.2
      · exact yoyStep_exportVal _ _

/-! ## Sortedness of the output -/

instance : IsTotal ProcessedData rowLe :=
  ⟨fun a b => by
    unfold rowLe
    by_cases h : a.year = b.year
    · rw [if_pos h, if_pos h.symm]
      exact le_total _ _
    · rw [if_neg h, if_neg (fun hh => h hh.symm)]
      omega⟩

instance : IsTrans ProcessedData rowLe :=
  ⟨fun a b c hab hbc => by
    unfold rowLe at *
    by_cases h1 : a.year = b.year <;> by_cases h2 : b.year = c.year
    · rw [if_pos h1] at hab
      rw [if_pos h2] at hbc
      rw [if_pos (h1.trans h2)]
      exact le_trans hbc hab
    · rw [if_pos h1] at hab
      rw [if_neg h2] at hbc
      rw [if_neg (fun hh : a.year = c.year => h2 (h1.symm.trans hh))]
      omega
    · rw [if_neg h1] at hab
      rw [if_pos h2] at hbc
      rw [if_neg (fun hh : a.year = c.year => h1 (hh.trans h2.symm))]
      omega
    · rw [if_neg h1] at hab
      rw [if_neg h2] at hbc
      rw [if_neg (fun hh : a.year = c.year => absurd (hh ▸ hab) (by omega))]
      omega⟩

/-- Claim C4: The output of `processData` is sorted ascending by year and, within
a year, descending by export value. -/
theorem claim_C4 (raw : List RawData) :
    (processData raw).Pairwise
      (fun a b => a.year < b.year ∨ (a.year = b.year ∧ b.exportVal ≤ a.exportVal)) := by
  rw [processData_eq]
  refine (List.sorted_insertionSort rowLe (finalData (wsOf raw))).imp ?_
  intro a b hab
  unfold rowLe at hab
  by_cases h : a.year = b.year
  · rw [if_pos h] at hab
    exact Or.inr ⟨h, hab⟩
  · rw [if_neg h] at hab
    exact Or.inl hab

/-! ## Year extraction and the silent-drop policy -/

/-- Claim C5: The year of a raw record is `parseInt` of the first four characters
of the stringified period field: a record whose parse fails is dropped
silently, leaving the entire output unchanged; a record whose parse succeeds
is kept as a cleaned row carrying exactly the parsed year. -/
theorem claim_C5 :
    (∀ (xs ys : List RawData) (r : RawData),
        jsParseInt (firstChars 4 (periodToString r.period)) = none →
        processData (xs ++ r :: ys) = processData (xs ++ ys))
    ∧ (∀ (r : RawData) (y : Int),
        jsParseInt (firstChars 4 (periodToString r.period)) = some y →
        cleanedData [r] = [⟨y, cleanName r.partnerName, coerceRmb r.rmb⟩]) := by
  constructor
  · intro xs ys r h
    have hc : cleanRow r = none := by simp [cleanRow, extractYear, h]
    have hcl : cleanedData (xs ++ r :: ys) = cleanedData (xs ++ ys) := by
      simp [cleanedData, List.filterMap_append, List.filterMap_cons, hc]
    unfold processData
    rw [show cleanedData (xs ++ r :: ys) = cleanedData (xs ++ ys) from hcl]
  · intro r y h
    simp [cleanedData, cleanRow, extractYear, h]

/-! ## The export-value coercion -/

/-- Claim C6: A textual export value is coerced by stripping the commas and
`parseFloat`ing, an unparseable or missing value coerces to 0, a numeric value
is used as-is, and the record is kept whenever its year parses, regardless of
its export value. -/
theorem claim_C6 :
    (∀ s : String,
        (jsParseFloat (stripCommas s) = none → coerceRmb (.vstr s) = 0)
        ∧ ∀ q, jsParseFloat (stripCommas s) = some q → coerceRmb (.vstr s) = q)
    ∧ coerceRmb .vnull = 0
    ∧ (∀ q : ℚ, coerceRmb (.vnum q) = q)
    ∧ (∀ (r : RawData) (y : Int), extractYear r.period = some y →
        cleanedData [r] = [⟨y, cleanName r.partnerName, coerceRmb r.rmb⟩]) := by
  refine ⟨fun s => ⟨fun h => ?_, fun q h => ?_⟩, rfl, fun q => rfl, fun r y h => ?_⟩
  · simp [coerceRmb, h]
  · simp [coerceRmb, h]
  · simp [cleanedData, cleanRow, h]

/-! ## The zero-total guard -/

lemma yoyStep_marketShare (ws : List ShareRow) (w : ShareRow) :
    (yoyStep ws w).marketShare = w.marketShare := rfl

lemma list_all_zero_of_nonneg {l : List ℚ} (hpos : ∀ x ∈ l, 0 ≤ x) (hsum : l.sum = 0) :
    ∀ x ∈ l, x = 0 := by
  induction l with
  | nil => intro x hx; simp at hx
  | cons q l ih =>
    have hq : 0 ≤ q := hpos q (List.mem_cons_self q l)
    have hl : 0 ≤ l.sum := List.sum_nonneg (fun x hx => hpos x (List.mem_cons_of_mem q hx))
    rw [List.sum_cons] at hsum
    have hq0 : q = 0 := by linarith
    have hl0 : l.sum = 0 := by linarith
    intro x hx
    rcases List.mem_cons.mp hx with rfl | hx
    · exact hq0
    · exact ih (fun x hx => hpos x (List.mem_cons_of_mem q hx)) hl0 x hx

set_option maxRecDepth 100000

/-- The as-stated claim C7 is false: with a negative coerced export value the
2023 total is zero, the divisor falls back to 1, and partner A receives market
share 100, not 0. -/
theorem claim_C7_counterexample :
    yearExportSum (processData
      [⟨.pnum 202301, "A", .vnum 100⟩, ⟨.pnum 202301, "B", .vnum (-100)⟩]) 2023 = 0
    ∧ ∃ r ∈ processData
        [⟨.pnum 202301, "A", .vnum 100⟩, ⟨.pnum 202301, "B", .vnum (-100)⟩],
        r.year = 2023 ∧ r.marketShare ≠ 0 := by
  with_unfolding_all decide

/-- Claim C7 (amended): For a year whose global total is zero the divisor is 1,
so no division by zero happens and every such record's share equals its own
export value — which is 0 (as the claim says) whenever that year's export
values are non-negative, but not in general. -/
theorem claim_C7_amended (raw : List RawData) (y : Int)
    (h : yearExportSum (processData raw) y = 0) :
    (∀ r ∈ processData raw, r.year = y → r.marketShare = r.exportVal)
    ∧ ((∀ r ∈ processData raw, r.year = y → 0 ≤ r.exportVal) →
        ∀ r ∈ processData raw, r.year = y → r.marketShare = 0) := by
  have hagg : sumYear (aggregate (cleanedData raw)) y = 0 := by
    rw [← processData_yearExportSum raw y]; exact h
  have hshare : ∀ r ∈ processData raw, r.year = y → r.marketShare = r.exportVal := by
    intro r hr hy
    obtain ⟨w, hw, rfl⟩ := mem_processData.mp hr
    rw [yoyStep_marketShare]
    obtain ⟨a, ha, rfl⟩ := List.mem_map.mp hw
    show a.exportVal / lookupTotalOr1 (globalTotal (aggregate (cleanedData raw))) a.year
      = (yoyStep (wsOf raw) _).exportVal
    rw [yoyStep_exportVal]
    have hay : a.year = y := hy
    rw [hay, lookupTotalOr1_eq, globalTotal_lookup0, hagg]
    show a.exportVal / (if (0 : ℚ) = 0 then 1 else 0) = a.exportVal
    rw [if_pos rfl, div_one]
  refine ⟨hshare, fun hpos r hr hy => ?_⟩
  have hmem : r.exportVal ∈
      ((processData raw).filter (fun r => r.year = y)).map (fun r => r.exportVal) :=
    List.mem_map_of_mem _ (List.mem_filter.mpr ⟨hr, by simp [hy]⟩)
  have hz : r.exportVal = 0 :=
    list_all_zero_of_nonneg
      (fun x hx => by
        obtain ⟨r', hr', rfl⟩ := List.mem_map.mp hx
        have hr'2 := List.mem_filter.mp hr'
        exact hpos r' hr'2.1 (by simpa using hr'2.2))
      h r.exportVal hmem
  rw [hshare r hr hy, hz]

/-! ## Concrete example data and claim witnesses -/

/-- The worked scenario of the specification: two 2023 rows and one 2022 row. -/
def exampleRaw : List RawData :=
  [⟨.pnum 202301, "A", .vstr "1,000"⟩,
   ⟨.pnum 202301, "B", .vnum 500⟩,
   ⟨.pnum 202201, "A", .vnum 800⟩]

theorem claim_C2_witness :
    yearExportSum (processData exampleRaw) 2023 ≠ 0
    ∧ yearShareSum (processData exampleRaw) 2023 = 1 :=
  ⟨by with_unfolding_all decide,
   claim_C2 exampleRaw 2023 (by with_unfolding_all decide)⟩

theorem claim_C3_witness :
    (⟨2023, "A", 1000, 2/3, some (1/4), 800⟩ : ProcessedData) ∈ processData exampleRaw
    ∧ (⟨2022, "A", 800, 1, none, 0⟩ : ProcessedData) ∈ processData exampleRaw
    ∧ (⟨2023, "A", 1000, 2/3, some (1/4), 800⟩ : ProcessedData).yoyGrowth
        = some ((((1000 : ℚ)) - 800) / |(800 : ℚ)|) :=
  ⟨by with_unfolding_all decide,
   by with_unfolding_all decide,
   (claim_C3 exampleRaw _ (by with_unfolding_all decide)).1
     ⟨2022, "A", 800, 1, none, 0⟩ (by with_unfolding_all decide)
     (by with_unfolding_all decide) (by with_unfolding_all decide)
     (by with_unfolding_all decide)⟩

theorem claim_C5_witness :
    jsParseInt (firstChars 4 (periodToString (PeriodVal.pstr "invalid"))) = none
    ∧ processData [⟨.pnum 202301, "A", .vnum 5⟩, ⟨.pstr "invalid", "B", .vnum 7⟩]
        = processData [⟨.pnum 202301, "A", .vnum 5⟩]
    ∧ jsParseInt (firstChars 4 (periodToString (PeriodVal.pnum 202301))) = some 2023
    ∧ cleanedData [⟨.pnum 202301, "A", .vnum 5⟩] = [⟨2023, "A", 5⟩] :=
  ⟨by with_unfolding_all decide,
   claim_C5.1 [⟨.pnum 202301, "A", .vnum 5⟩] [] ⟨.pstr "invalid", "B", .vnum 7⟩
     (by with_unfolding_all decide),
   by with_unfolding_all decide,
   claim_C5.2 ⟨.pnum 202301, "A", .vnum 5⟩ 2023 (by with_unfolding_all decide)⟩

theorem claim_C6_witness :
    jsParseFloat (stripCommas "abc") = none
    ∧ coerceRmb (.vstr "abc") = 0
    ∧ jsParseFloat (stripCommas "1,000") = some 1000
    ∧ coerceRmb (.vstr "1,000") = 1000
    ∧ extractYear (PeriodVal.pnum 202301) = some 2023
    ∧ cleanedData [⟨.pnum 202301, "X", .vnull⟩] = [⟨2023, "X", 0⟩] :=
  ⟨by with_unfolding_all decide,
   (claim_C6.1 "abc").1 (by with_unfolding_all decide),
   by with_unfolding_all decide,
   (claim_C6.1 "1,000").2 1000 (by with_unfolding_all decide),
   by with_unfolding_all decide,
   claim_C6.2.2.2 ⟨.pnum 202301, "X", .vnull⟩ 2023 (by with_unfolding_all decide)⟩

theorem claim_C7_amended_witness :
    yearExportSum (processData [⟨.pnum 202301, "A", .vnum 0⟩]) 2023 = 0
    ∧ (⟨2023, "A", 0, 0, none, 0⟩ : ProcessedData) ∈ processData [⟨.pnum 202301, "A", .vnum 0⟩]
    ∧ (⟨2023, "A", 0, 0, none, 0⟩ : ProcessedData).marketShare = 0 :=
  ⟨by with_unfolding_all decide,
   by with_unfolding_all decide,
   (claim_C7_amended [⟨.pnum 202301, "A", .vnum 0⟩] 2023
       (by with_unfolding_all decide)).2
     (by with_unfolding_all decide)
     ⟨2023, "A", 0, 0, none, 0⟩ (by with_unfolding_all decide)
     (by with_unfolding_all decide)⟩

theorem claim_C10_witness :
    (⟨2023, "A", 1000, 2/3, some (1/4), 800⟩ : ProcessedData) ∈ processData exampleRaw
    ∧ ((1 : ℚ)/4) = (((1000 : ℚ)) - 800) / |(800 : ℚ)| :=
  ⟨by with_unfolding_all decide,
   ((claim_C10 exampleRaw ⟨2023, "A", 1000, 2/3, some (1/4), 800⟩
       (by with_unfolding_all decide)).2 (1/4) rfl).2⟩

/-! ## The download export -/

/-- The as-stated claim C8 is false: the export omits the 出口额 column — two
datasets that differ only in export value produce the identical download
text, and the column name 出口额 appears nowhere in it. -/
theorem claim_C8_counterexample :
    downloadText [⟨2023, "A", 100, 1, some (1/4), 80⟩]
      = downloadText [⟨2023, "A", 999, 1, some (1/4), 80⟩]
    ∧ strIncludes (downloadText [⟨2023, "A", 100, 1, some (1/4), 80⟩]) "出口额" = false := by
  with_unfolding_all decide

/-- Claim C8 (amended): When at least one record has non-null growth, the
download text is the byte-order mark followed by the comma/CRLF-delimited
table whose header is
`年份,贸易伙伴名称,市场份额,同比增速,市场份额_展示,同比增速_展示`, with one
row per record with non-null growth, carrying year, partner name, market share
(raw and as a two-decimal percentage string) and growth (raw and as a
one-decimal percentage string) — and no export-value column; when no record
has non-null growth, `Papa.unparse` of the empty array is the empty string and
the download text is the bare byte-order mark. -/
theorem claim_C8_amended (data : List ProcessedData) :
    (csvData data = [] → downloadText data = "\uFEFF")
    ∧ (csvData data ≠ [] →
        downloadText data
          = "\uFEFF" ++ String.intercalate "\r\n" (csvHeader :: (csvData data).map csvRowString))
    ∧ (csvData data).length = (data.filter (fun r => r.yoyGrowth ≠ none)).length
    ∧ ∀ r ∈ data, ∀ g, r.yoyGrowth = some g →
        (⟨r.year, r.partnerName, r.marketShare, some g,
          jsToFixed 2 (r.marketShare * 100) ++ "%",
          jsToFixed 1 (g * 100) ++ "%"⟩ : CsvRow) ∈ csvData data := by
  refine ⟨fun h => ?_, fun h => ?_, by simp [csvData], fun r hr g hg => ?_⟩
  · show "\uFEFF" ++ papaUnparse (csvData data) = "\uFEFF"
    rw [h]
    rfl
  · show "\uFEFF" ++ papaUnparse (csvData data) = _
    rcases hc : csvData data with _ | ⟨a, l⟩
    · exact absurd hc h
    · rfl
  have hf : r ∈ data.filter (fun r => r.yoyGrowth ≠ none) :=
    List.mem_filter.mpr ⟨hr, by simp [hg]⟩
  have hm := List.mem_map_of_mem (fun row : ProcessedData =>
    (⟨row.year, row.partnerName, row.marketShare, row.yoyGrowth,
      jsToFixed 2 (row.marketShare * 100) ++ "%",
      match row.yoyGrowth with
      | some g => jsToFixed 1 (g * 100) ++ "%"
      | none => ""⟩ : CsvRow)) hf
  simp only [hg] at hm
  exact hm

theorem claim_C8_amended_witness :
    (⟨2023, "A", 100, 1, some (1/4), 80⟩ : ProcessedData)
        ∈ [(⟨2023, "A", 100, 1, some (1/4), 80⟩ : ProcessedData)]
    ∧ (⟨2023, "A", 1, some (1/4),
        jsToFixed 2 ((1 : ℚ) * 100) ++ "%", jsToFixed 1 ((1/4 : ℚ) * 100) ++ "%"⟩ : CsvRow)
        ∈ csvData [⟨2023, "A", 100, 1, some (1/4), 80⟩] :=
  ⟨by with_unfolding_all decide,
   (claim_C8_amended [⟨2023, "A", 100, 1, some (1/4), 80⟩]).2.2.2
     ⟨2023, "A", 100, 1, some (1/4), 80⟩ (by with_unfolding_all decide)
     (1/4) rfl⟩

/-! ## The BCG plotted set -/

lemma plotStep_base (xRef yMin yMax : ℚ) (i : Nat) (d : ProcessedData) :
    (plotStep xRef yMin yMax i d).base = d := rfl

lemma plotMap_base (xRef yMin yMax : ℚ) :
    ∀ (l : List ProcessedData) (i : Nat),
      (plotMap xRef yMin yMax i l).map (fun p => p.base) = l := by
  intro l
  induction l with
  | nil => intro i; rfl
  | cons d rest ih => intro i; simp [plotMap, plotStep_base, ih]

lemma mem_plotMap_base {xRef yMin yMax : ℚ} {l : List ProcessedData} {i : Nat} {p : PlotRow}
    (hp : p ∈ plotMap xRef yMin yMax i l) : p.base ∈ l := by
  have := List.mem_map_of_mem (fun p => p.base) hp
  rwa [plotMap_base] at this

lemma plotMap_pairwise {xRef yMin yMax : ℚ} {R : ProcessedData → ProcessedData → Prop} :
    ∀ {l : List ProcessedData} {i : Nat}, l.Pairwise R →
      (plotMap xRef yMin yMax i l).Pairwise (fun u v => R u.base v.base) := by
  intro l
  induction l with
  | nil => intro i _; exact List.Pairwise.nil
  | cons d rest ih =>
    intro i h
    rw [List.pairwise_cons] at h
    rw [plotMap, List.pairwise_cons]
    exact ⟨fun p hp => h.1 p.base (mem_plotMap_base hp), ih h.2⟩

lemma plotMap_drop (xRef yMin yMax : ℚ) :
    ∀ (l : List ProcessedData) (i n : Nat),
      (plotMap xRef yMin yMax i l).drop n = plotMap xRef yMin yMax (i + n) (l.drop n) := by
  intro l
  induction l with
  | nil => intro i n; simp [plotMap]
  | cons d rest ih =>
    intro i n
    cases n with
    | zero => simp [plotMap]
    | succ n =>
      rw [plotMap, List.drop_succ_cons, List.drop_succ_cons, ih]
      congr 1
      omega

lemma plotMap_label_of_ge {xRef yMin yMax : ℚ} :
    ∀ (l : List ProcessedData) (i : Nat), 20 ≤ i →
      ∀ p ∈ plotMap xRef yMin yMax i l, p.label = "" := by
  intro l
  induction l with
  | nil => intro i _ p hp; simp [plotMap] at hp
  | cons d rest ih =>
    intro i hi p hp
    rw [plotMap, List.mem_cons] at hp
    rcases hp with rfl | hp
    · show (if i < 20 then d.partnerName else "") = ""
      rw [if_neg (by omega)]
    · exact ih (i + 1) (by omega) p hp

instance : IsTotal ProcessedData exportDesc :=
  ⟨fun a b => le_total b.exportVal a.exportVal⟩

instance : IsTrans ProcessedData exportDesc :=
  ⟨fun _ _ _ hab hbc => le_trans hbc hab⟩

/-- Claim C9: For any processed dataset, selected year and filter parameters,
the plotted set of the BCG view has at most 35 points, ordered by export value
descending, all drawn from the filtered records (year, non-null growth,
positive share, share-range, keyword); any filtered record with strictly
larger export value than a plotted one is itself plotted (the plotted set is
a top segment); and every point past the first 20 carries the empty label. -/
theorem claim_C9 (data : List ProcessedData) (year : Int)
    (yMin yMax minShare maxShare : ℚ) (countryFilter : String) :
    (bcgPlotData data year yMin yMax minShare maxShare countryFilter).length ≤ 35
    ∧ (bcgPlotData data year yMin yMax minShare maxShare countryFilter).Pairwise
        (fun u v => v.base.exportVal ≤ u.base.exportVal)
    ∧ (∀ p ∈ bcgPlotData data year yMin yMax minShare maxShare countryFilter,
        p.base ∈ bcgFilter data year minShare maxShare countryFilter)
    ∧ (∀ p ∈ bcgPlotData data year yMin yMax minShare maxShare countryFilter,
        ∀ q ∈ bcgFilter data year minShare maxShare countryFilter,
          p.base.exportVal < q.exportVal →
          q ∈ (bcgPlotData data year yMin yMax minShare maxShare countryFilter).map
                (fun u => u.base))
    ∧ (∀ p ∈ (bcgPlotData data year yMin yMax minShare maxShare countryFilter).drop 20,
        p.label = "") := by
  set F := bcgFilter data year minShare maxShare countryFilter with hF
  set sortedF := List.insertionSort exportDesc F with hsorted
  set filtered := sortedF.take 35 with hfiltered
  have hplot : bcgPlotData data year yMin yMax minShare maxShare countryFilter
      = if filtered.isEmpty then []
        else plotMap ((filtered.map (fun d => d.marketShare)).sum / (filtered.length : ℚ))
          yMin yMax 0 filtered := rfl
  by_cases hemp : filtered.isEmpty
  · rw [hplot, if_pos hemp]
    refine ⟨by simp, List.Pairwise.nil, by simp, by simp, by simp⟩
  · rw [hplot, if_neg hemp]
    set xRef := ((filtered.map (fun d => d.marketShare)).sum / (filtered.length : ℚ)) with hx
    have hsort : sortedF.Pairwise exportDesc := List.sorted_insertionSort exportDesc F
    have hsubF : filtered ⊆ F := fun x hx =>
      (List.perm_insertionSort exportDesc F).subset ((List.take_sublist 35 sortedF).subset hx)
    refine ⟨?_, ?_, ?_, ?_, ?_⟩
    · rw [show (plotMap xRef yMin yMax 0 filtered).length = filtered.length from ?_]
      · rw [hfiltered, List.length_take]
        exact min_le_left _ _
      · have := congrArg List.length (plotMap_base xRef yMin yMax filtered 0)
        simpa using this
    · exact plotMap_pairwise (List.Pairwise.sublist (List.take_sublist 35 sortedF) hsort)
    · exact fun p hp => hsubF (mem_plotMap_base hp)
    · intro p hp q hq hlt
      have hqs : q ∈ sortedF := (List.perm_insertionSort exportDesc F).symm.subset hq
      have hsplit : sortedF = filtered ++ sortedF.drop 35 := by
        rw [hfiltered, List.take_append_drop]
      rcases List.mem_append.mp (hsplit ▸ hqs) with hqt | hqd
      · rw [plotMap_base]
        exact hqt
      · exfalso
        have hpw := hsplit ▸ hsort
        have hrel := (List.pairwise_append.mp hpw).2.2 p.base (mem_plotMap_base hp) q hqd
        exact absurd hrel (not_le.mpr hlt)
    · intro p hp
      rw [plotMap_drop] at hp
      exact plotMap_label_of_ge (filtered.drop 20) (0 + 20) (by omega) p hp

/-- A small concrete dataset for the BCG view. -/
def examplePlotInput : List ProcessedData :=
  [⟨2023, "甲", 100, 1/2, some (2/10), 50⟩,
   ⟨2023, "乙", 50, 1/2, some (-1/10), 60⟩]

theorem claim_C9_witness :
    (bcgPlotData examplePlotInput 2023 (-1) 3 0 100 "").length = 2
    ∧ (bcgPlotData examplePlotInput 2023 (-1) 3 0 100 "").length ≤ 35 :=
  ⟨by with_unfolding_all decide,
   (claim_C9 examplePlotInput 2023 (-1) 3 0 100 "").1⟩
